import Mathlib

/-!
Shallow embedding of `csv_db` (src/src/lib.rs), a minimal embedded document
store persisting collections as CSV files, with four public operations
(`find`, `insert`, `delete`, `update`) built on a read-all primitive and a
write-all primitive (`write`).

Modelling choices, each tied to the source:
* A collection file on disk is a `FileState T`: `absent` (the file does not
  exist), `unreadable` (the file exists but `Reader::from_path` fails, e.g.
  permissions — the source matches `Err(_)`, so any open failure behaves the
  same), or `present recs` with `recs : List (Rec T)` the records in the
  file in order.  A record `Rec T := Option T` is `some d` when the line is
  a well-formed encoding of document `d` and `none` when it is malformed;
  the record codec itself (serde/csv) is opaque per the source design.
* `rdr.deserialize().collect()` short-circuits on the first malformed
  record: `decodeAll`.
* Each `task::spawn_blocking(...).await` can fail with a `JoinError`; the
  boolean oracles in `Env` (`joinRead`, `joinWrite`) model whether each
  dispatched blocking unit runs to completion, and `writeOk` models whether
  the blocking write body (directory creation, file open/create, serialize)
  succeeds.  Errors are `DbError`: `join` for a `JoinError`, `decode` for a
  failure of `deserialize().collect()`, `writeFail` for a `csv::Error` from
  the write path; in the source these are distinct downcastable types
  inside `Box<dyn Error>` (and `write` even separates them in its return
  type `Result<Result<(), csv::Error>, JoinError>`).
* Operations map an input `FileState` to `Except DbError` of their result;
  mutating operations return the new `FileState`.  `find` returns only the
  matching documents, mirroring that it never writes.
-/

namespace CsvDb

/-- One line of a collection file: `some d` is a well-formed record that
decodes to document `d`; `none` is a malformed record. -/
abbrev Rec (T : Type) := Option T

/-- State of one collection file on disk. -/
inductive FileState (T : Type) where
  | absent : FileState T
  | unreadable : FileState T
  | present (recs : List (Rec T)) : FileState T
deriving DecidableEq

/-- Error kinds a public operation can surface, mirroring the distinct
error types in the source: `tokio::task::JoinError` (join), a failure of
`rdr.deserialize().collect()` (decode), and a `csv::Error` from the
blocking write body (writeFail). -/
inductive DbError where
  | join : DbError
  | decode : DbError
  | writeFail : DbError
deriving DecidableEq

/-- Decode every record of the file, as `rdr.deserialize().collect()`
does: the whole read fails if any record is malformed, and no partial
sequence is produced. -/
def decodeAll {T : Type} : List (Rec T) → Except DbError (List T)
  | [] => .ok []
  | some d :: rest => (decodeAll rest).map (fun ds => d :: ds)
  | none :: _ => .error .decode

/-- Body of the blocking closure in `find`: `Reader::from_path` failing for
any reason (`Err(_)`) yields `Ok(Vec::new())`; otherwise all records are
decoded. -/
def readAll {T : Type} : FileState T → Except DbError (List T)
  | .absent => .ok []
  | .unreadable => .ok []
  | .present recs => decodeAll recs

/-- Public `find`: dispatch the read to a worker (`joinOk` tells whether the
dispatch completed; `results?` surfaces the `JoinError` first), then filter
the decoded documents with the predicate, preserving order. -/
def find {T : Type} (joinOk : Bool) (st : FileState T) (p : T → Bool) :
    Except DbError (List T) :=
  if joinOk then
    match readAll st with
    | .ok docs => .ok (docs.filter p)
    | .error e => .error e
  else .error .join

/-- Private `write`: dispatch the blocking write to a worker; on success the
collection file holds exactly the encoding of `docs`, one well-formed
record per document, the previous contents fully replaced. -/
def write {T : Type} (joinOk writeOk : Bool) (docs : List T) :
    Except DbError (FileState T) :=
  if joinOk then
    if writeOk then .ok (.present (docs.map some))
    else .error .writeFail
  else .error .join

/-- Failure oracle for one mutating operation: whether the read dispatch
completes, whether the write dispatch completes, and whether the blocking
write body succeeds. -/
structure Env where
  joinRead : Bool
  joinWrite : Bool
  writeOk : Bool
deriving DecidableEq

/-- Environment in which every dispatched unit runs and the write succeeds. -/
def Env.all : Env := ⟨true, true, true⟩

/-- Public `insert`: read the whole collection via `find` with an
always-true predicate, push the document, write the result back. -/
def insert {T : Type} (env : Env) (st : FileState T) (document : T) :
    Except DbError (FileState T) := do
  let documents ← find env.joinRead st (fun _ => true)
  write env.joinWrite env.writeOk (documents ++ [document])

/-- Public `delete`: read the whole collection, retain only the documents
the predicate does not match, write the result back. -/
def delete {T : Type} (env : Env) (st : FileState T) (p : T → Bool) :
    Except DbError (FileState T) := do
  let documents ← find env.joinRead st (fun _ => true)
  write env.joinWrite env.writeOk (documents.filter (fun d => !p d))

/-- Public `update`: read the whole collection, remove every document the
predicate matches, push the replacement document, write the result back. -/
def update {T : Type} (env : Env) (st : FileState T) (document : T)
    (p : T → Bool) : Except DbError (FileState T) := do
  let documents ← find env.joinRead st (fun _ => true)
  write env.joinWrite env.writeOk
    (documents.filter (fun d => !p d) ++ [document])

/-! Helper lemmas about the primitives. -/

/-- Decoding the encoding of a document sequence recovers the sequence. -/
theorem decodeAll_map_some {T : Type} (docs : List T) :
    decodeAll (docs.map some) = .ok docs := by
  induction docs with
  | nil => rfl
  | cons d rest ih => simp [decodeAll, ih, Except.map]

/-- Reading back a file just written by `write` recovers the documents. -/
theorem readAll_encode {T : Type} (docs : List T) :
    readAll (FileState.present (docs.map some)) = .ok docs :=
  decodeAll_map_some docs

/-- A malformed record anywhere in the file makes decoding fail. -/
theorem decodeAll_of_none_mem {T : Type} {recs : List (Rec T)}
    (h : none ∈ recs) : decodeAll recs = .error .decode := by
  induction recs with
  | nil => cases h
  | cons r rest ih =>
    cases r with
    | none => rfl
    | some d =>
      rcases List.mem_cons.mp h with h1 | h1
      · exact absurd h1 (by simp)
      · simp [decodeAll, ih h1, Except.map]

/-- Decoding fails only with the decode error kind. -/
theorem decodeAll_error_eq {T : Type} {recs : List (Rec T)} {e : DbError}
    (h : decodeAll recs = .error e) : e = .decode := by
  induction recs with
  | nil => cases h
  | cons r rest ih =>
    cases r with
    | none => cases h; rfl
    | some d =>
      cases hr : decodeAll rest with
      | ok ds => rw [decodeAll, hr] at h; cases h
      | error e1 =>
        rw [decodeAll, hr] at h
        cases h
        exact ih hr

/-- A completed `find` returns the filter of what read-all decoded. -/
theorem find_of_readAll {T : Type} {st : FileState T} {S : List T}
    (p : T → Bool) (h : readAll st = .ok S) :
    find true st p = .ok (S.filter p) := by
  simp [find, h]

/-- A successful `insert` appended the document and rewrote the file. -/
theorem insert_ok_elim {T : Type} {env : Env} {st : FileState T} {d : T}
    {st1 : FileState T} (h : insert env st d = .ok st1) :
    ∃ old, readAll st = .ok old ∧
      st1 = .present ((old ++ [d]).map some) := by
  unfold insert find write at h
  cases hjr : env.joinRead <;> simp [hjr, Bind.bind, Except.bind] at h
  cases hra : readAll st with
  | error e => simp [hra] at h
  | ok docs =>
    simp [hra] at h
    cases hjw : env.joinWrite <;> simp [hjw] at h
    cases hwo : env.writeOk <;> simp [hwo] at h
    exact ⟨docs, rfl, by simpa using h.symm⟩

/-- A successful `delete` rewrote the file with the non-matching documents. -/
theorem delete_ok_elim {T : Type} {env : Env} {st : FileState T}
    {p : T → Bool} {st1 : FileState T} (h : delete env st p = .ok st1) :
    ∃ old, readAll st = .ok old ∧
      st1 = .present ((old.filter (fun d => !p d)).map some) := by
  unfold delete find write at h
  cases hjr : env.joinRead <;> simp [hjr, Bind.bind, Except.bind] at h
  cases hra : readAll st with
  | error e => simp [hra] at h
  | ok docs =>
    simp [hra] at h
    cases hjw : env.joinWrite <;> simp [hjw] at h
    cases hwo : env.writeOk <;> simp [hwo] at h
    exact ⟨docs, rfl, h.symm⟩

/-- A successful `update` rewrote the file with the non-matching documents
followed by the replacement. -/
theorem update_ok_elim {T : Type} {env : Env} {st : FileState T} {d : T}
    {p : T → Bool} {st1 : FileState T} (h : update env st d p = .ok st1) :
    ∃ old, readAll st = .ok old ∧
      st1 = .present ((old.filter (fun x => !p x) ++ [d]).map some) := by
  unfold update find write at h
  cases hjr : env.joinRead <;> simp [hjr, Bind.bind, Except.bind] at h
  cases hra : readAll st with
  | error e => simp [hra] at h
  | ok docs =>
    simp [hra] at h
    cases hjw : env.joinWrite <;> simp [hjw] at h
    cases hwo : env.writeOk <;> simp [hwo] at h
    exact ⟨docs, rfl, by simpa using h.symm⟩

/-- When nothing fails, `insert` yields the old documents plus the new one. -/
theorem insert_all_ok {T : Type} {st : FileState T} {S : List T} (d : T)
    (h : readAll st = .ok S) :
    insert Env.all st d = .ok (.present ((S ++ [d]).map some)) := by
  simp [insert, find, write, Env.all, h, Bind.bind, Except.bind]

/-- When nothing fails, `delete` yields the non-matching old documents. -/
theorem delete_all_ok {T : Type} {st : FileState T} {S : List T}
    (p : T → Bool) (h : readAll st = .ok S) :
    delete Env.all st p = .ok (.present ((S.filter (fun d => !p d)).map some)) := by
  simp [delete, find, write, Env.all, h, Bind.bind, Except.bind]

/-- When nothing fails, `update` yields the non-matching old documents plus
the replacement. -/
theorem update_all_ok {T : Type} {st : FileState T} {S : List T} (d : T)
    (p : T → Bool) (h : readAll st = .ok S) :
    update Env.all st d p =
      .ok (.present ((S.filter (fun x => !p x) ++ [d]).map some)) := by
  simp [update, find, write, Env.all, h, Bind.bind, Except.bind]

/-! Claim theorems. -/

/-- C1: for every collection state and every successful run of insert,
delete or update, the resulting collection file exists (the state is
`present`) and its contents are exactly the encoding of the final
in-memory document sequence computed by that operation — the old records
are gone and every record is a well-formed encoding of one final
document, so no partial record remains. -/
theorem C1_successful_mutation_rewrites_file {T : Type} (env : Env)
    (st : FileState T) (d : T) (p : T → Bool) :
    (∀ st1, insert env st d = .ok st1 →
      ∃ old, readAll st = .ok old ∧
        st1 = .present ((old ++ [d]).map some)) ∧
    (∀ st1, delete env st p = .ok st1 →
      ∃ old, readAll st = .ok old ∧
        st1 = .present ((old.filter (fun x => !p x)).map some)) ∧
    (∀ st1, update env st d p = .ok st1 →
      ∃ old, readAll st = .ok old ∧
        st1 = .present ((old.filter (fun x => !p x) ++ [d]).map some)) :=
  ⟨fun _ h => insert_ok_elim h, fun _ h => delete_ok_elim h,
    fun _ h => update_ok_elim h⟩

/-- Witness for C1: a concrete successful insert into an absent `Nat`
collection, with the rewrite hypothesis discharged by evaluation. -/
theorem C1_successful_mutation_rewrites_file_witness :
    ∃ old, readAll (FileState.absent (T := Nat)) = .ok old ∧
      FileState.present [some 7] = .present ((old ++ [7]).map some) :=
  (C1_successful_mutation_rewrites_file Env.all FileState.absent 7
    (fun _ => true)).1 (FileState.present [some 7]) rfl

/-- C2: reading a collection whose file does not exist yields an empty
sequence rather than an error — find succeeds with an empty result, and
insert, delete and update, which read via find, all succeed from the
absent state. -/
theorem C2_missing_file_reads_empty {T : Type} (p q : T → Bool) (d : T) :
    readAll (FileState.absent (T := T)) = .ok [] ∧
    find true (FileState.absent (T := T)) p = .ok [] ∧
    insert Env.all FileState.absent d = .ok (.present [some d]) ∧
    delete Env.all (FileState.absent (T := T)) q = .ok (.present []) ∧
    update Env.all FileState.absent d q = .ok (.present [some d]) := by
  refine ⟨rfl, ?_, ?_, ?_, ?_⟩ <;>
    simp [find, insert, delete, update, write, readAll, Env.all,
      Bind.bind, Except.bind]

/-- C3: a successful insert leaves the collection equal to the prior
contents with the document appended at the end; no condition on the
document relates it to the prior contents, so duplicates are permitted,
and inserting d1 then d2 into a fresh collection makes find with an
always-true predicate return [d1, d2] in that order. -/
theorem C3_insert_appends {T : Type} (st : FileState T) (S : List T)
    (d d1 d2 : T) (h : readAll st = .ok S) :
    insert Env.all st d = .ok (.present ((S ++ [d]).map some)) ∧
    (∃ st1 st2,
      insert Env.all (FileState.absent (T := T)) d1 = .ok st1 ∧
      insert Env.all st1 d2 = .ok st2 ∧
      find true st2 (fun _ => true) = .ok [d1, d2]) := by
  refine ⟨insert_all_ok d h,
    .present [some d1], .present [some d1, some d2], ?_, ?_, ?_⟩
  · simpa using @insert_all_ok T FileState.absent [] d1 rfl
  · simpa using insert_all_ok d2 (readAll_encode [d1])
  · simpa using find_of_readAll (fun _ => true) (readAll_encode [d1, d2])

/-- Witness for C3: a duplicate insert of 5 into an absent `Nat`
collection, with the read hypothesis discharged by evaluation. -/
theorem C3_insert_appends_witness :
    insert Env.all (FileState.absent (T := Nat)) 5 =
      .ok (.present (([] ++ [5]).map some)) :=
  (C3_insert_appends FileState.absent [] 5 5 5 rfl).1

/-- C4: a successful delete keeps exactly the documents the predicate does
not match, in the original order; a predicate matching nothing leaves the
contents unchanged, and a predicate matching everything leaves the file
present with zero records. -/
theorem C4_delete_filters {T : Type} (st : FileState T) (S : List T)
    (p : T → Bool) (h : readAll st = .ok S) :
    delete Env.all st p =
      .ok (.present ((S.filter (fun x => !p x)).map some)) ∧
    ((∀ x ∈ S, p x = false) →
      delete Env.all st p = .ok (.present (S.map some))) ∧
    ((∀ x ∈ S, p x = true) →
      delete Env.all st p = .ok (.present [])) := by
  refine ⟨delete_all_ok p h, fun hnone => ?_, fun hall => ?_⟩
  · have hf : S.filter (fun x => !p x) = S := by
      apply List.filter_eq_self.mpr
      intro a ha
      simp [hnone a ha]
    rw [delete_all_ok p h, hf]
  · have hf : S.filter (fun x => !p x) = [] := by
      apply List.filter_eq_nil_iff.mpr
      intro a ha
      simp [hall a ha]
    rw [delete_all_ok p h, hf]
    rfl

/-- Witness for C4: deleting with an always-true predicate from a one-record
`Nat` collection empties it. -/
theorem C4_delete_filters_witness :
    delete Env.all (FileState.present [some 3]) (fun _ => true) =
      .ok (.present (([3].filter (fun _ => !true)).map some)) :=
  (C4_delete_filters (FileState.present [some 3]) [3] (fun _ => true)
    rfl).1

/-- C5: a successful update removes every document the predicate matches
(even several) and appends the replacement at the end; in particular on
[a, b] with a predicate matching exactly a, updating with replacement a1
yields [b, a1], not [a1, b]. -/
theorem C5_update_removes_then_appends {T : Type} (st : FileState T)
    (S : List T) (d : T) (p : T → Bool) (h : readAll st = .ok S) :
    update Env.all st d p =
      .ok (.present ((S.filter (fun x => !p x) ++ [d]).map some)) ∧
    (∀ a b a1 (q : T → Bool), q a = true → q b = false →
      update Env.all (FileState.present [some a, some b]) a1 q =
        .ok (.present [some b, some a1])) := by
  refine ⟨update_all_ok d p h, fun a b a1 q hqa hqb => ?_⟩
  simpa [List.filter_cons, hqa, hqb] using
    update_all_ok a1 q (readAll_encode [a, b])

/-- Witness for C5: updating a two-record `Nat` collection whose predicate
matches only the first record. -/
theorem C5_update_removes_then_appends_witness :
    update Env.all (FileState.present [some 1, some 2]) 9
        (fun x => decide (x = 1)) =
      .ok (.present [some 2, some 9]) :=
  (C5_update_removes_then_appends (FileState.present ([] : List (Rec Nat)))
    [] 0 (fun _ => true) rfl).2 1 2 9
    (fun x => decide (x = 1)) (by decide) (by decide)

/-- C6: find returns exactly the subsequence of the stored documents
satisfying the predicate, in encounter order; find takes the file state and
returns only documents — it produces no new file state, mirroring that it
never writes — and two completed calls with the same predicate and no
intervening mutation return identical results. -/
theorem C6_find_filters_pure {T : Type} (st : FileState T) (S : List T)
    (p : T → Bool) (h : readAll st = .ok S) :
    find true st p = .ok (S.filter p) ∧
    (∀ r1 r2, find true st p = r1 → find true st p = r2 → r1 = r2) :=
  ⟨find_of_readAll p h, fun _ _ h1 h2 => by rw [← h1, ← h2]⟩

/-- Witness for C6: find with an even-number predicate on a three-record
`Nat` collection. -/
theorem C6_find_filters_pure_witness :
    find true (FileState.present [some 1, some 2, some 4])
        (fun x => decide (x % 2 = 0)) =
      .ok ([1, 2, 4].filter (fun x => decide (x % 2 = 0))) :=
  (C6_find_filters_pure (FileState.present [some 1, some 2, some 4])
    [1, 2, 4] (fun x => decide (x % 2 = 0)) rfl).1

/-- C7: round trip — inserting a document into an absent collection, or
into an existing collection with zero records, then running find with an
always-true predicate returns exactly that one document. -/
theorem C7_round_trip {T : Type} (d : T) :
    (∃ st1, insert Env.all (FileState.absent (T := T)) d = .ok st1 ∧
      find true st1 (fun _ => true) = .ok [d]) ∧
    (∃ st1,
      insert Env.all (FileState.present ([] : List (Rec T))) d = .ok st1 ∧
      find true st1 (fun _ => true) = .ok [d]) := by
  refine ⟨⟨.present [some d], ?_, ?_⟩, ⟨.present [some d], ?_, ?_⟩⟩
  · simpa using @insert_all_ok T FileState.absent [] d rfl
  · simpa using find_of_readAll (fun _ => true) (readAll_encode [d])
  · simpa using @insert_all_ok T (FileState.present []) [] d rfl
  · simpa using find_of_readAll (fun _ => true) (readAll_encode [d])

/-- C8: a malformed record anywhere in the file is a hard error — find
fails with the decode error, and the read phase makes insert, delete and
update fail the same way, so no partial sequence of the well-formed
documents is ever returned. -/
theorem C8_malformed_record_hard_error {T : Type} (recs : List (Rec T))
    (p q : T → Bool) (d : T) (h : none ∈ recs) :
    find true (FileState.present recs) p = .error .decode ∧
    insert Env.all (FileState.present recs) d = .error .decode ∧
    delete Env.all (FileState.present recs) q = .error .decode ∧
    update Env.all (FileState.present recs) d q = .error .decode := by
  have hd : decodeAll recs = .error .decode := decodeAll_of_none_mem h
  refine ⟨?_, ?_, ?_, ?_⟩ <;>
    simp [find, insert, delete, update, readAll, hd, Env.all,
      Bind.bind, Except.bind]

/-- Witness for C8: a one-record file whose only record is malformed. -/
theorem C8_malformed_record_hard_error_witness :
    find true (FileState.present ([none] : List (Rec Nat)))
        (fun _ => true) = .error .decode :=
  (C8_malformed_record_hard_error [none] (fun _ => true) (fun _ => true)
    0 (List.mem_singleton.mpr rfl)).1

/-- C9: a worker-dispatch failure — of the read dispatch or of the write
dispatch — surfaces as the join error, an error kind distinct from the
decode and write error kinds, for every public operation. -/
theorem C9_join_failure_distinct_error {T : Type} (st : FileState T)
    (S : List T) (p : T → Bool) (d : T) (h : readAll st = .ok S) :
    DbError.join ≠ DbError.decode ∧
    DbError.join ≠ DbError.writeFail ∧
    find false st p = .error .join ∧
    insert ⟨false, true, true⟩ st d = .error .join ∧
    delete ⟨false, true, true⟩ st p = .error .join ∧
    update ⟨false, true, true⟩ st d p = .error .join ∧
    insert ⟨true, false, true⟩ st d = .error .join ∧
    delete ⟨true, false, true⟩ st p = .error .join ∧
    update ⟨true, false, true⟩ st d p = .error .join := by
  refine ⟨by decide, by decide, ?_, ?_, ?_, ?_, ?_, ?_, ?_⟩ <;>
    simp [find, insert, delete, update, write, h, Bind.bind, Except.bind]

/-- Witness for C9: dispatch failures on a concrete readable `Nat`
collection. -/
theorem C9_join_failure_distinct_error_witness :
    find false (FileState.present [some 1]) (fun _ => true) =
      (.error .join : Except DbError (List Nat)) :=
  (C9_join_failure_distinct_error (FileState.present [some 1]) [1]
    (fun _ => true) 0 rfl).2.2.1

/-- C10: any failure to open the collection file for reading — modelled by
the unreadable state, since the source matches every open error with
`Err(_)` — makes find succeed with an empty sequence; and find can only
fail with the join or decode error kinds, never a file-open error. -/
theorem C10_open_failure_reads_empty {T : Type} (p : T → Bool) :
    find true (FileState.unreadable (T := T)) p = .ok [] ∧
    (∀ (jr : Bool) (st : FileState T) (e : DbError),
      find jr st p = .error e → e = .join ∨ e = .decode) := by
  constructor
  · simp [find, readAll]
  · intro jr st e h
    cases jr with
    | false =>
      simp [find] at h
      exact Or.inl h.symm
    | true =>
      cases st with
      | absent => simp [find, readAll] at h
      | unreadable => simp [find, readAll] at h
      | present recs =>
        cases hd : decodeAll recs with
        | ok docs => simp [find, readAll, hd] at h
        | error e1 =>
          simp [find, readAll, hd] at h
          exact Or.inr (h ▸ decodeAll_error_eq hd)

/-- Witness for C10: find on an unreadable `Nat` collection succeeds with
an empty result, and a concrete error is of an allowed kind. -/
theorem C10_open_failure_reads_empty_witness :
    find true (FileState.unreadable (T := Nat)) (fun _ => true) = .ok [] ∧
    (DbError.join = .join ∨ DbError.join = .decode) :=
  ⟨(C10_open_failure_reads_empty (fun _ => true)).1,
    (C10_open_failure_reads_empty (T := Nat) (fun _ => true)).2 false
      FileState.absent .join rfl⟩

end CsvDb
